import Mathlib

/-!
Verification of the realtime player-stats backend (`src/backend/main.py`).

The file gives a shallow embedding of the parts of the program the claims
talk about: the `ConnectionManager` (a lock-guarded list of websocket
handles with `connect`, `disconnect` and `broadcast`), the mutation
endpoints `create_player`, `update_stats` and `delete_player`, and the
attach phase of `websocket_endpoint` that sends the `init` snapshot.
Exceptions raised by Python code are modelled with `Except PyExc`;
machine-level concurrency is modelled by an explicit trace of atomic
operations, where atomicity follows the asyncio yield points of the
source (a coroutine only loses control at an `await` that suspends).
-/

/-- A websocket handle.  Python compares connection objects by identity
(`websocket in self.active_connections` uses `__eq__`, which is identity
for `WebSocket` objects), so a handle is an opaque natural number. -/
abbrev WS := Nat

/-- The Python exceptions that can arise on the embedded code paths:
a failure inside `websocket.send_json`, the `ValueError` of
`list.remove` on a missing element, and a `KeyError` from a `dict`
subscript. -/
inductive PyExc
  | sendError (info : String)
  | valueError (info : String)
  | keyError (key : String)
deriving DecidableEq

/-- The request body of `PATCH /players/\x7bplayer_id\x7d/stats`
(`class StatsBase(SQLModel)`). -/
structure StatsBase where
  «matches» : Int
  runs_or_goals : Int
  average : Rat
deriving DecidableEq

/-- A row of the `Player` table (`class Player(SQLModel, table=True)`).
`average` is a Python float; the embedding uses `Rat`, which is faithful
here because the program only stores and copies the value, never
computes with it. -/
structure Player where
  id : String
  name : String
  sport : String
  team : String
  age : Int
  «matches» : Int
  runs_or_goals : Int
  average : Rat
deriving DecidableEq

/-- The nested `stats` dictionary produced by `player_to_dict`. -/
structure StatsDict where
  «matches» : Int
  runs_or_goals : Int
  average : Rat
deriving DecidableEq

/-- The dictionary produced by `player_to_dict`. -/
structure PlayerDict where
  id : String
  name : String
  sport : String
  team : String
  age : Int
  stats : StatsDict
deriving DecidableEq

/-- `player_to_dict(p)` from the source. -/
def player_to_dict (p : Player) : PlayerDict :=
  { id := p.id, name := p.name, sport := p.sport, team := p.team, age := p.age,
    stats := { «matches» := p.«matches», runs_or_goals := p.runs_or_goals, average := p.average } }

/-- The broadcast messages of the system: the `type` field of the JSON
dict is the constructor tag. -/
inductive Msg
  | player_created (player : PlayerDict)
  | stats_updated (player : PlayerDict)
  | player_deleted (player_id : String)
deriving DecidableEq

/-- The outcome of `await conn.send_json(message)` for each connection
during one broadcast pass: `.ok ()` if the send succeeds, `.error e` if
it raises. -/
abbrev SendBehavior := Msg → WS → Except PyExc Unit

namespace ConnectionManager

/-- `ConnectionManager.connect`: `accept` the socket and append it to
`active_connections` (the append happens under `self.lock`). -/
def connect (websocket : WS) (active_connections : List WS) : List WS :=
  active_connections ++ [websocket]

/-- `ConnectionManager.disconnect`: under the lock, remove the first
occurrence of `websocket` if it is present, otherwise do nothing. -/
def disconnect (websocket : WS) (active_connections : List WS) : List WS :=
  if websocket ∈ active_connections then active_connections.erase websocket
  else active_connections

/-- The `for conn in list(self.active_connections)` loop of `broadcast`:
returns `(attempted, delivered, to_remove)`, each in iteration order.
A connection whose `send_json` raises is caught by the bare
`except Exception` and appended to `to_remove`. -/
def broadcastLoop (send_json : SendBehavior) (message : Msg) :
    List WS → List WS × List WS × List WS
  | [] => ([], [], [])
  | conn :: rest =>
    let r := broadcastLoop send_json message rest
    match send_json message conn with
    | .ok _ => (conn :: r.1, conn :: r.2.1, r.2.2)
    | .error _ => (conn :: r.1, r.2.1, conn :: r.2.2)

/-- The removal loop of `broadcast`:
`for r in to_remove: if r in self.active_connections: self.active_connections.remove(r)`. -/
def removeAll (conns to_remove : List WS) : List WS :=
  to_remove.foldl (fun acc r => if r ∈ acc then acc.erase r else acc) conns

/-- The observable outcome of one `broadcast` call. -/
structure BroadcastResult where
  attempted : List WS
  delivered : List WS
  to_remove : List WS
  conns : List WS
deriving DecidableEq

/-- `ConnectionManager.broadcast`: iterate a copy of
`active_connections` taken at the start of the pass, attempt the send to
each connection, collect failures, and remove the failed connections
after the loop.  The whole pass runs under `self.lock`. -/
def broadcast (send_json : SendBehavior) (message : Msg) (conns : List WS) : BroadcastResult :=
  let r := broadcastLoop send_json message conns
  { attempted := r.1, delivered := r.2.1, to_remove := r.2.2, conns := removeAll conns r.2.2 }

/-- `list.remove` raises `ValueError` when the element is absent. -/
def listRemove (l : List WS) (x : WS) : Except PyExc (List WS) :=
  if x ∈ l then .ok (l.erase x) else .error (.valueError "list.remove(x): x not in list")

/-- The send loop of `broadcast` with exception propagation explicit: a
raised exception is either caught by the `except Exception` handler
(and the connection collected into `to_remove`) or would surface as an
`.error` of the whole computation. -/
def broadcastTryLoop (send_json : SendBehavior) (message : Msg) :
    List WS → List WS → Except PyExc (List WS)
  | [], to_remove => .ok to_remove
  | conn :: rest, to_remove =>
    match send_json message conn with
    | .ok _ => broadcastTryLoop send_json message rest to_remove
    | .error _ => broadcastTryLoop send_json message rest (to_remove ++ [conn])

/-- The removal loop with the possible `ValueError` of `list.remove`
explicit; the `if r in self.active_connections` guard protects it. -/
def removeLoop : List WS → List WS → Except PyExc (List WS)
  | conns, [] => .ok conns
  | conns, r :: rest =>
    if r ∈ conns then
      match listRemove conns r with
      | .ok conns2 => removeLoop conns2 rest
      | .error e => .error e
    else removeLoop conns rest

/-- `ConnectionManager.broadcast` in the exception monad: an uncaught
exception anywhere in the body would make the result an `.error`. -/
def broadcastE (send_json : SendBehavior) (message : Msg) (conns : List WS) :
    Except PyExc (List WS) :=
  match broadcastTryLoop send_json message conns [] with
  | .ok to_remove => removeLoop conns to_remove
  | .error e => .error e

end ConnectionManager

/-- Sequential delivery of `broadcast` under a stall model: `stalls c`
means `await conn.send_json(message)` for connection `c` never
completes.  The loop of `broadcast` awaits each send in turn, so the
connections actually receiving the message are exactly the prefix of the
pass before the first stalled connection. -/
def deliveredBeforeStall (stalls : WS → Bool) : List WS → List WS
  | [] => []
  | conn :: rest => if stalls conn then [] else conn :: deliveredBeforeStall stalls rest

/-- Whether a broadcast pass terminates at all under the stall model:
it does iff no connection in the pass stalls, because each send is
awaited to completion with no timeout before the next one starts. -/
def broadcastCompletes (stalls : WS → Bool) (conns : List WS) : Bool :=
  conns.all (fun c => !(stalls c))

/-- `session.get(Player, player_id)`: the row of the table with the
given primary key (the first matching row; primary keys are unique). -/
def sessionGet (db : List Player) (player_id : String) : Option Player :=
  db.find? (fun p => p.id == player_id)

/-- The in-place mutation of the fetched row performed by
`update_stats`: `p.matches = stats.matches; p.runs_or_goals =
stats.runs_or_goals; p.average = stats.average`. -/
def applyStats (p : Player) (stats : StatsBase) : Player :=
  { p with «matches» := stats.«matches», runs_or_goals := stats.runs_or_goals,
           average := stats.average }

/-- Committing the mutated row: the first row whose id matches is
replaced by the new row (primary-key lookup touches one row). -/
def dbReplace (db : List Player) (player_id : String) (p2 : Player) : List Player :=
  match db with
  | [] => []
  | q :: rest => if q.id == player_id then p2 :: rest else q :: dbReplace rest player_id p2

/-- `session.delete(p); session.commit()`: the first row whose id
matches is removed. -/
def dbDelete (db : List Player) (player_id : String) : List Player :=
  match db with
  | [] => []
  | q :: rest => if q.id == player_id then rest else q :: dbDelete rest player_id

/-- The externally visible side effects an endpoint performs, in
program order: a commit of the store and a call to
`manager.broadcast`. -/
inductive ApiAction
  | commit (db : List Player)
  | broadcastCall (m : Msg)
deriving DecidableEq

/-- The outcome of one endpoint call: the HTTP response (`.error s`
models `raise HTTPException(s, ...)`), the state of the store after the
call, and the ordered side effects performed. -/
structure EndpointResult (α : Type) where
  response : Except Nat α
  db : List Player
  actions : List ApiAction

/-- `PATCH /players/\x7bplayer_id\x7d/stats` (`update_stats`): 404 when
the row is absent; otherwise overwrite the three stat fields, commit,
and then broadcast the `stats_updated` event with the post-mutation
record. -/
def update_stats (db : List Player) (player_id : String) (stats : StatsBase) :
    EndpointResult PlayerDict :=
  match sessionGet db player_id with
  | none => { response := .error 404, db := db, actions := [] }
  | some p =>
    let p2 := applyStats p stats
    let db2 := dbReplace db player_id p2
    { response := .ok (player_to_dict p2), db := db2,
      actions := [.commit db2, .broadcastCall (.stats_updated (player_to_dict p2))] }

/-- `DELETE /players/\x7bplayer_id\x7d` (`delete_player`): 404 when the
row is absent; otherwise delete the row, commit, and then broadcast the
`player_deleted` event carrying the id.  The JSON response
`\x7b"ok": True\x7d` is modelled as `.ok true`. -/
def delete_player (db : List Player) (player_id : String) : EndpointResult Bool :=
  match sessionGet db player_id with
  | none => { response := .error 404, db := db, actions := [] }
  | some _ =>
    let db2 := dbDelete db player_id
    { response := .ok true, db := db2,
      actions := [.commit db2, .broadcastCall (.player_deleted player_id)] }

/-- The `stats` sub-dictionary of a `POST /players` request body; each
key may be absent. -/
structure StatsBody where
  «matches» : Option Int
  runs_or_goals : Option Int
  average : Option Rat
deriving DecidableEq

/-- The untyped request body of `POST /players`
(`data: Dict[str, Any]`); each key may be absent. -/
structure CreateBody where
  name : Option String
  sport : Option String
  team : Option String
  age : Option Int
  stats : Option StatsBody
deriving DecidableEq

/-- `POST /players` (`create_player`): the `Player(...)` constructor
arguments are evaluated left to right; `data["name"]`, `data["sport"]`
and the `data["stats"][...]` subscripts raise `KeyError` when the key
is absent, while `data.get("team", "")` and `data.get("age", 0)`
default.  A raised `KeyError` propagates out of the endpoint before
`session.add`/`commit` and before `manager.broadcast`.  `newId` models
the `uuid.uuid4()` default of the primary key. -/
def create_player (data : CreateBody) (newId : String) (db : List Player) :
    Except PyExc (EndpointResult PlayerDict) :=
  match data.name with
  | none => .error (.keyError "name")
  | some name =>
  match data.sport with
  | none => .error (.keyError "sport")
  | some sport =>
  let team := data.team.getD ""
  let age := data.age.getD 0
  match data.stats with
  | none => .error (.keyError "stats")
  | some st =>
  match st.«matches» with
  | none => .error (.keyError "matches")
  | some m =>
  match st.runs_or_goals with
  | none => .error (.keyError "runs_or_goals")
  | some r =>
  match st.average with
  | none => .error (.keyError "average")
  | some a =>
  let p : Player := { id := newId, name := name, sport := sport, team := team, age := age,
                      «matches» := m, runs_or_goals := r, average := a }
  let db2 := db ++ [p]
  .ok { response := .ok (player_to_dict p), db := db2,
        actions := [.commit db2, .broadcastCall (.player_created (player_to_dict p))] }

/-- A message as it appears on one listener's channel: the `init`
snapshot of `websocket_endpoint` or a broadcast event. -/
inductive WsMsg
  | init (players : List PlayerDict)
  | event (m : Msg)
deriving DecidableEq

/-- Whether a channel message is a broadcast Event (not the Snapshot). -/
def WsMsg.isEvent : WsMsg → Bool
  | .init _ => false
  | .event _ => true

/-- The shared state of the system: the `active_connections` registry
and the global per-channel delivery log.  An entry `(ws, m)` records
that message `m` was successfully written to channel `ws`; entries
appear in the order the writes were initiated, which is the order they
arrive on each channel. -/
structure SysState where
  registry : List WS
  log : List (WS × WsMsg)
deriving DecidableEq

/-- The messages a given channel has received, in order. -/
def msgsTo (ws : WS) (log : List (WS × WsMsg)) : List WsMsg :=
  (log.filter (fun e => e.1 == ws)).map Prod.snd

/-- The attach phase of `websocket_endpoint` (lines 189-192 of the
source): `await manager.connect(websocket)` registers the channel, the
record list `db` is then read synchronously, and the `init` snapshot is
sent.  Between the append inside `connect` and the initiation of the
`init` send the coroutine never suspends (no `await` that yields), so
the phase is one atomic step of the trace model.  If the `init` send
raises, the exception propagates out of the endpoint — the
`except WebSocketDisconnect` handler only guards the later receive
loop — so `manager.disconnect` is NOT called and the channel stays in
the registry. -/
def websocketAttachPhase (st : SysState) (ws : WS) (db : List Player)
    (initSend : Except PyExc Unit) : SysState × Option PyExc :=
  let registry1 := ConnectionManager.connect ws st.registry
  match initSend with
  | .ok _ =>
    ({ registry := registry1, log := st.log ++ [(ws, WsMsg.init (db.map player_to_dict))] },
     none)
  | .error e => ({ registry := registry1, log := st.log }, some e)

/-- The atomic operations of the trace model.  `attach` is a successful
attach (the `init` send succeeds), `attachFail` an attach whose `init`
send raises; `dispatch` is one full `broadcast` pass (atomic because it
runs under `self.lock`); `detach` is the `manager.disconnect` call of
the endpoint's `WebSocketDisconnect` handler. -/
inductive Op
  | attach (ws : WS) (db : List Player)
  | attachFail (ws : WS) (db : List Player)
  | dispatch (m : Msg) (send_json : SendBehavior)
  | detach (ws : WS)

/-- The channel an operation attaches, when it is an attach. -/
def Op.attachTarget : Op → Option WS
  | .attach ws _ => some ws
  | .attachFail ws _ => some ws
  | _ => none

/-- One step of the system. -/
def step (st : SysState) : Op → SysState
  | .attach ws db => (websocketAttachPhase st ws db (.ok ())).1
  | .attachFail ws db =>
    (websocketAttachPhase st ws db (.error (.sendError "send_json failed"))).1
  | .dispatch m send_json =>
    let r := ConnectionManager.broadcast send_json m st.registry
    { registry := r.conns, log := st.log ++ r.delivered.map (fun c => (c, WsMsg.event m)) }
  | .detach ws => { st with registry := ConnectionManager.disconnect ws st.registry }

/-- Run a trace of operations. -/
def runTrace : SysState → List Op → SysState
  | st, [] => st
  | st, op :: rest => runTrace (step st op) rest

namespace ConnectionManager

theorem broadcastLoop_attempted (send_json : SendBehavior) (message : Msg) :
    ∀ l : List WS, (broadcastLoop send_json message l).1 = l := by
  intro l
  induction l with
  | nil => rfl
  | cons c rest ih =>
    cases h : send_json message c <;> simp [broadcastLoop, h, ih]

theorem broadcastLoop_delivered (send_json : SendBehavior) (message : Msg) :
    ∀ l : List WS,
      (broadcastLoop send_json message l).2.1 =
        l.filter (fun c => (send_json message c).isOk) := by
  intro l
  induction l with
  | nil => rfl
  | cons c rest ih =>
    cases h : send_json message c <;>
      simp [broadcastLoop, h, ih, List.filter_cons, Except.isOk, Except.toBool]

theorem broadcastLoop_to_remove (send_json : SendBehavior) (message : Msg) :
    ∀ l : List WS,
      (broadcastLoop send_json message l).2.2 =
        l.filter (fun c => !(send_json message c).isOk) := by
  intro l
  induction l with
  | nil => rfl
  | cons c rest ih =>
    cases h : send_json message c <;>
      simp [broadcastLoop, h, ih, List.filter_cons, Except.isOk, Except.toBool]

theorem removeAll_subset : ∀ (to_remove conns : List WS), removeAll conns to_remove ⊆ conns := by
  intro to_remove
  induction to_remove with
  | nil => intro conns; exact fun x hx => hx
  | cons r rest ih =>
    intro conns
    have h2 : removeAll conns (r :: rest) =
        removeAll (if r ∈ conns then conns.erase r else conns) rest := rfl
    rw [h2]
    refine (ih _).trans ?_
    by_cases hr : r ∈ conns
    · simpa [hr] using List.erase_subset r conns
    · simp [hr]

theorem not_mem_removeAll (c : WS) :
    ∀ (to_remove conns : List WS), conns.count c ≤ to_remove.count c →
      c ∉ removeAll conns to_remove := by
  intro to_remove
  induction to_remove with
  | nil =>
    intro conns h
    simp only [List.count_nil, Nat.le_zero] at h
    simpa [removeAll] using List.count_eq_zero.mp h
  | cons r rest ih =>
    intro conns h
    have h2 : removeAll conns (r :: rest) =
        removeAll (if r ∈ conns then conns.erase r else conns) rest := rfl
    rw [h2]
    refine ih _ ?_
    by_cases hrc : c = r
    · subst hrc
      by_cases hm : c ∈ conns
      · simp only [hm, if_true, List.count_erase_self]
        have hcount := List.count_cons_self c rest
        omega
      · simp only [hm, if_false]
        have : conns.count c = 0 := List.count_eq_zero.mpr hm
        omega
    · have hrest : (r :: rest).count c = rest.count c := List.count_cons_of_ne hrc rest
      by_cases hm : r ∈ conns
      · simp only [hm, if_true, List.count_erase_of_ne hrc]
        omega
      · simp only [hm, if_false]
        omega

theorem broadcast_attempted (send_json : SendBehavior) (message : Msg) (conns : List WS) :
    (broadcast send_json message conns).attempted = conns :=
  broadcastLoop_attempted send_json message conns

theorem broadcast_delivered (send_json : SendBehavior) (message : Msg) (conns : List WS) :
    (broadcast send_json message conns).delivered =
      conns.filter (fun c => (send_json message c).isOk) :=
  broadcastLoop_delivered send_json message conns

theorem broadcast_to_remove (send_json : SendBehavior) (message : Msg) (conns : List WS) :
    (broadcast send_json message conns).to_remove =
      conns.filter (fun c => !(send_json message c).isOk) :=
  broadcastLoop_to_remove send_json message conns

theorem broadcast_conns_eq (send_json : SendBehavior) (message : Msg) (conns : List WS) :
    (broadcast send_json message conns).conns =
      removeAll conns (conns.filter (fun c => !(send_json message c).isOk)) := by
  show removeAll conns (broadcastLoop send_json message conns).2.2 = _
  rw [broadcastLoop_to_remove]

theorem broadcast_conns_subset (send_json : SendBehavior) (message : Msg) (conns : List WS) :
    (broadcast send_json message conns).conns ⊆ conns :=
  removeAll_subset _ _

theorem broadcast_delivered_subset (send_json : SendBehavior) (message : Msg) (conns : List WS) :
    (broadcast send_json message conns).delivered ⊆ conns := by
  rw [broadcast_delivered]
  exact List.filter_subset' _

theorem not_mem_broadcast_conns (send_json : SendBehavior) (message : Msg) (conns : List WS)
    (c : WS) (hfail : (send_json message c).isOk = false) :
    c ∉ (broadcast send_json message conns).conns := by
  rw [broadcast_conns_eq]
  refine not_mem_removeAll c _ conns ?_
  have hpc : (fun x : WS => !(send_json message x).isOk) c = true := by
    simp only [hfail]; rfl
  exact le_of_eq
    (@List.count_filter WS _ _ (fun x : WS => !(send_json message x).isOk) c conns hpc).symm

theorem broadcastTryLoop_isOk (send_json : SendBehavior) (message : Msg) :
    ∀ (l acc : List WS), ∃ out, broadcastTryLoop send_json message l acc = .ok out := by
  intro l
  induction l with
  | nil => intro acc; exact ⟨acc, rfl⟩
  | cons c rest ih =>
    intro acc
    cases h : send_json message c <;> simp [broadcastTryLoop, h] <;> exact ih _

theorem removeLoop_isOk :
    ∀ (to_remove conns : List WS), ∃ out, removeLoop conns to_remove = .ok out := by
  intro to_remove
  induction to_remove with
  | nil => intro conns; exact ⟨conns, rfl⟩
  | cons r rest ih =>
    intro conns
    by_cases hm : r ∈ conns
    · simpa [removeLoop, listRemove, hm] using ih (conns.erase r)
    · simpa [removeLoop, listRemove, hm] using ih conns

end ConnectionManager

/-- Claim C2: for every message and every state of the listener
registry, including states where sending to some or all registered
channels raises an exception, `ConnectionManager.broadcast` never
raises an uncaught error to its caller: every exception of `send_json`
is caught by the `except Exception` handler, and the guarded removal
loop cannot raise `ValueError`. -/
theorem C2_broadcast_never_raises (send_json : SendBehavior) (message : Msg)
    (conns : List WS) :
    (ConnectionManager.broadcastE send_json message conns).isOk = true := by
  unfold ConnectionManager.broadcastE
  obtain ⟨out, hout⟩ := ConnectionManager.broadcastTryLoop_isOk send_json message conns []
  rw [hout]
  obtain ⟨out2, hout2⟩ := ConnectionManager.removeLoop_isOk out conns
  show (ConnectionManager.removeLoop conns out).isOk = true
  rw [hout2]
  rfl

/-- Claim C4: for every event, `broadcast` attempts delivery to every
listener of the membership snapshot taken at the start of the pass (the
`list(self.active_connections)` copy), and the removal of failed
listeners is applied to the registry only after the delivery loop over
that snapshot completes. -/
theorem C4_broadcast_stable_snapshot (send_json : SendBehavior) (message : Msg)
    (conns : List WS) :
    (ConnectionManager.broadcast send_json message conns).attempted = conns ∧
    (ConnectionManager.broadcast send_json message conns).conns =
      ConnectionManager.removeAll conns
        (ConnectionManager.broadcast send_json message conns).to_remove ∧
    (ConnectionManager.broadcast send_json message conns).to_remove =
      conns.filter (fun c => !(send_json message c).isOk) := by
  refine ⟨ConnectionManager.broadcast_attempted send_json message conns, ?_, 
    ConnectionManager.broadcast_to_remove send_json message conns⟩
  rw [ConnectionManager.broadcast_to_remove]
  exact ConnectionManager.broadcast_conns_eq send_json message conns

/-- Claim C3: a listener whose delivery fails during a broadcast pass is
removed from the registry by the end of the pass; delivery is still
attempted for every other listener of the pass (and succeeds for every
listener whose send succeeds); and every subsequent broadcast runs over
the pruned registry, so the removed listener is never attempted again. -/
theorem C3_failed_listener_removed (send_json : SendBehavior) (message : Msg)
    (conns : List WS) (c : WS) (hc : c ∈ conns)
    (hfail : (send_json message c).isOk = false) :
    c ∉ (ConnectionManager.broadcast send_json message conns).conns ∧
    (∀ d ∈ conns, d ∈ (ConnectionManager.broadcast send_json message conns).attempted) ∧
    (∀ d ∈ conns, (send_json message d).isOk = true →
      d ∈ (ConnectionManager.broadcast send_json message conns).delivered) ∧
    ∀ (send2 : SendBehavior) (m2 : Msg),
      c ∉ (ConnectionManager.broadcast send2 m2
            (ConnectionManager.broadcast send_json message conns).conns).attempted ∧
      c ∉ (ConnectionManager.broadcast send2 m2
            (ConnectionManager.broadcast send_json message conns).conns).delivered := by
  have hnot := ConnectionManager.not_mem_broadcast_conns send_json message conns c hfail
  refine ⟨hnot, ?_, ?_, ?_⟩
  · intro d hd
    rw [ConnectionManager.broadcast_attempted]
    exact hd
  · intro d hd hok
    rw [ConnectionManager.broadcast_delivered]
    exact List.mem_filter.mpr ⟨hd, hok⟩
  · intro send2 m2
    constructor
    · rw [ConnectionManager.broadcast_attempted]
      exact hnot
    · intro hmem
      exact hnot (ConnectionManager.broadcast_delivered_subset send2 m2 _ hmem)

/-- Witness for C3 at a concrete input: two listeners, the send to
listener 0 raises, listener 0 is gone from the post-pass registry. -/
theorem C3_witness :
    (0 : WS) ∉ (ConnectionManager.broadcast
      (fun _ c => if c == 0 then Except.error (PyExc.sendError "closed") else Except.ok ())
      (Msg.player_deleted "p1") [0, 1]).conns :=
  (C3_failed_listener_removed
    (fun _ c => if c == 0 then Except.error (PyExc.sendError "closed") else Except.ok ())
    (Msg.player_deleted "p1") [0, 1] 0 (by decide) rfl).1

/-- Claim C7, counterexample: on a registry holding the same handle
twice, disconnecting twice is NOT the same as disconnecting once
(`list.remove` removes one occurrence per call), so the claim's
"for every registry state ... disconnecting twice equals disconnecting
once" fails at the concrete state `[0, 0]`. -/
theorem C7_counterexample :
    ConnectionManager.disconnect 0 (ConnectionManager.disconnect 0 [0, 0]) ≠
      ConnectionManager.disconnect 0 [0, 0] := by
  decide

/-- Claim C7 as amended: disconnecting a handle that is not in the
registry is a no-op that leaves the registry unchanged, and on a
registry without duplicate entries — the only registries the system
builds, since each websocket connection appends one fresh handle —
disconnecting twice equals disconnecting once. -/
theorem C7_disconnect_idempotent (conns : List WS) (ws : WS) :
    (ws ∉ conns → ConnectionManager.disconnect ws conns = conns) ∧
    (conns.Nodup →
      ConnectionManager.disconnect ws (ConnectionManager.disconnect ws conns) =
        ConnectionManager.disconnect ws conns) := by
  constructor
  · intro h
    simp [ConnectionManager.disconnect, h]
  · intro hnd
    by_cases hm : ws ∈ conns
    · have h1 : ConnectionManager.disconnect ws conns = conns.erase ws := by
        simp [ConnectionManager.disconnect, hm]
      rw [h1]
      have h2 : ws ∉ conns.erase ws := hnd.not_mem_erase
      simp [ConnectionManager.disconnect, h2]
    · have h1 : ConnectionManager.disconnect ws conns = conns := by
        simp [ConnectionManager.disconnect, hm]
      rw [h1, h1]

/-- Witness for C7's amended statement at concrete inputs. -/
theorem C7_witness :
    ConnectionManager.disconnect 1 [0] = [0] ∧
    ConnectionManager.disconnect 0 (ConnectionManager.disconnect 0 [0, 1]) =
      ConnectionManager.disconnect 0 [0, 1] :=
  ⟨(C7_disconnect_idempotent [0] 1).1 (by decide),
   (C7_disconnect_idempotent [0, 1] 0).2 (by decide)⟩

/-- Claim C8 concerns the source's unbounded `await conn.send_json`:
the code of `broadcast` awaits each send to completion with no timeout
and no per-listener queue, so at the concrete state where the registry
is `[0, 1]` and the send to listener 0 stalls forever, the pass never
completes and listener 1 never receives the message — one stalled
listener does stall delivery to the others (and, since the pass holds
`self.lock`, the mutation pipeline as well). -/
theorem C8_stalled_listener_blocks_pass :
    broadcastCompletes (fun c => c == 0) [0, 1] = false ∧
    deliveredBeforeStall (fun c => c == 0) [0, 1] = [] ∧
    broadcastCompletes (fun _ => false) [0, 1] = true ∧
    deliveredBeforeStall (fun _ => false) [0, 1] = [0, 1] := by
  decide

/-- Claim C5, counterexample: when the `init` snapshot send raises, the
channel registered by `manager.connect` on line 189 is NOT detached —
the exception propagates out of `websocket_endpoint` (the
`except WebSocketDisconnect` handler guards only the receive loop) and
the handle stays in `active_connections`, contradicting the claim that
it "is not left registered". -/
theorem C5_counterexample :
    (0 : WS) ∈ (websocketAttachPhase { registry := [], log := [] } 0 []
      (Except.error (PyExc.sendError "closed"))).1.registry ∧
    (websocketAttachPhase { registry := [], log := [] } 0 []
      (Except.error (PyExc.sendError "closed"))).1.registry = [0] := by
  decide

/-- Claim C5 as amended: when the `init` send raises, the exception
propagates out of the endpoint with the listener still registered and
no snapshot on its channel; the listener is removed from the registry
only by the next broadcast pass, where — its channel still failing —
delivery to it fails, so it never successfully receives any broadcast
event and is pruned at the end of that pass. -/
theorem C5_failed_snapshot_listener_stays_registered (st : SysState) (ws : WS)
    (db : List Player) (e : PyExc) :
    (websocketAttachPhase st ws db (Except.error e)).2 = some e ∧
    ws ∈ (websocketAttachPhase st ws db (Except.error e)).1.registry ∧
    (websocketAttachPhase st ws db (Except.error e)).1.log = st.log ∧
    ∀ (send2 : SendBehavior) (m2 : Msg), (send2 m2 ws).isOk = false →
      ws ∉ (ConnectionManager.broadcast send2 m2
              (websocketAttachPhase st ws db (Except.error e)).1.registry).conns ∧
      ws ∉ (ConnectionManager.broadcast send2 m2
              (websocketAttachPhase st ws db (Except.error e)).1.registry).delivered := by
  refine ⟨rfl, ?_, rfl, ?_⟩
  · show ws ∈ ConnectionManager.connect ws st.registry
    simp [ConnectionManager.connect]
  · intro send2 m2 hfail
    constructor
    · exact ConnectionManager.not_mem_broadcast_conns send2 m2 _ ws hfail
    · intro hmem
      rw [ConnectionManager.broadcast_delivered] at hmem
      have := (List.mem_filter.mp hmem).2
      rw [hfail] at this
      exact Bool.false_ne_true this

/-- Witness for C5's amended statement at a concrete input. -/
theorem C5_witness :
    (0 : WS) ∈ (websocketAttachPhase { registry := [1], log := [] } 0 []
      (Except.error (PyExc.sendError "closed"))).1.registry ∧
    (0 : WS) ∉ (ConnectionManager.broadcast
      (fun _ _ => Except.error (PyExc.sendError "closed")) (Msg.player_deleted "p1")
      (websocketAttachPhase { registry := [1], log := [] } 0 []
        (Except.error (PyExc.sendError "closed"))).1.registry).conns :=
  ⟨(C5_failed_snapshot_listener_stays_registered { registry := [1], log := [] } 0 []
      (PyExc.sendError "closed")).2.1,
   ((C5_failed_snapshot_listener_stays_registered { registry := [1], log := [] } 0 []
      (PyExc.sendError "closed")).2.2.2
      (fun _ _ => Except.error (PyExc.sendError "closed")) (Msg.player_deleted "p1") rfl).1⟩

/-- Claim C6: for both mutation endpoints acting on an existing id —
`update_stats` and `delete_player` — a missing player yields the 404
error with the store unchanged and no broadcast call, while an existing
player yields exactly the two side effects `commit` then
`broadcastCall`, in that order, with the broadcast carrying the
post-mutation event. -/
theorem C6_mutation_pipeline (db : List Player) (player_id : String) (stats : StatsBase) :
    (sessionGet db player_id = none →
      (update_stats db player_id stats).response = Except.error 404 ∧
      (update_stats db player_id stats).db = db ∧
      (update_stats db player_id stats).actions = [] ∧
      (delete_player db player_id).response = Except.error 404 ∧
      (delete_player db player_id).db = db ∧
      (delete_player db player_id).actions = []) ∧
    (∀ p, sessionGet db player_id = some p →
      (update_stats db player_id stats).actions =
        [ApiAction.commit (update_stats db player_id stats).db,
         ApiAction.broadcastCall (Msg.stats_updated (player_to_dict (applyStats p stats)))] ∧
      (delete_player db player_id).actions =
        [ApiAction.commit (delete_player db player_id).db,
         ApiAction.broadcastCall (Msg.player_deleted player_id)]) := by
  constructor
  · intro h
    simp [update_stats, delete_player, h]
  · intro p h
    simp [update_stats, delete_player, h]

/-- A concrete player row used by the witnesses. -/
def witnessPlayer : Player :=
  { id := "a", name := "n", sport := "s", team := "t", age := 30,
    «matches» := 1, runs_or_goals := 2, average := 3 }

/-- A concrete stats body used by the witnesses. -/
def witnessStats : StatsBase :=
  { «matches» := 9, runs_or_goals := 8, average := 7 }

/-- Witness for C6 at concrete inputs: a one-row store, a missing id
and the present id. -/
theorem C6_witness :
    (update_stats [witnessPlayer] "b" witnessStats).actions = [] ∧
    (delete_player [witnessPlayer] "a").actions =
      [ApiAction.commit (delete_player [witnessPlayer] "a").db,
       ApiAction.broadcastCall (Msg.player_deleted "a")] :=
  ⟨((C6_mutation_pipeline [witnessPlayer] "b" witnessStats).1 rfl).2.2.1,
   ((C6_mutation_pipeline [witnessPlayer] "a" witnessStats).2 witnessPlayer rfl).2⟩

theorem map_applyStats_id_of_absent (stats : StatsBase) (player_id : String) :
    ∀ db : List Player, (∀ q ∈ db, q.id ≠ player_id) →
      db.map (fun q => if q.id = player_id then applyStats q stats else q) = db := by
  intro db
  induction db with
  | nil => intro _; rfl
  | cons q rest ih =>
    intro h
    have hq : q.id ≠ player_id := h q (List.mem_cons_self q rest)
    simp only [List.map_cons, if_neg hq, List.cons.injEq, true_and]
    exact ih (fun x hx => h x (List.mem_cons_of_mem q hx))

theorem dbReplace_eq_map (stats : StatsBase) :
    ∀ (db : List Player) (player_id : String) (p : Player),
      (db.map Player.id).Nodup → sessionGet db player_id = some p →
      dbReplace db player_id (applyStats p stats) =
        db.map (fun q => if q.id = player_id then applyStats q stats else q) := by
  intro db
  induction db with
  | nil => intro pid p _ hfind; simp [sessionGet] at hfind
  | cons q rest ih =>
    intro pid p hnd hfind
    by_cases hq : q.id = pid
    · have hbeq : (q.id == pid) = true := beq_iff_eq.mpr hq
      have hp : p = q := by
        simp [sessionGet, List.find?_cons, hbeq] at hfind
        exact hfind.symm
      rw [hp]
      simp only [dbReplace, hbeq, if_true, List.map_cons, if_pos hq, List.cons.injEq, true_and]
      have hnotin : q.id ∉ rest.map Player.id := (List.nodup_cons.mp hnd).1
      refine (map_applyStats_id_of_absent stats pid rest ?_).symm
      intro x hx hxid
      have : x.id ∈ rest.map Player.id := List.mem_map_of_mem Player.id hx
      rw [hxid, ← hq] at this
      exact hnotin this
    · have hbeq : (q.id == pid) = false := by
        simp only [beq_eq_false_iff_ne, ne_eq]
        exact hq
      have hfind2 : sessionGet rest pid = some p := by
        simpa [sessionGet, List.find?_cons, hbeq] using hfind
      simp only [dbReplace, hbeq, Bool.false_eq_true, if_false, List.map_cons, if_neg hq,
        List.cons.injEq, true_and]
      exact ih pid p (List.nodup_cons.mp hnd).2 hfind2

/-- Claim C9: on a store whose ids are unique (the primary-key
invariant), `update_stats` rewrites exactly the row with the given id,
and on that row it changes exactly the three stat fields to the
supplied values — `id`, `name`, `sport`, `team` and `age` of that row,
and every other row entirely, are unchanged. -/
theorem C9_update_stats_frame (db : List Player) (player_id : String) (stats : StatsBase)
    (hids : (db.map Player.id).Nodup) :
    (update_stats db player_id stats).db =
      db.map (fun q => if q.id = player_id then applyStats q stats else q) ∧
    ∀ q : Player,
      (applyStats q stats).id = q.id ∧ (applyStats q stats).name = q.name ∧
      (applyStats q stats).sport = q.sport ∧ (applyStats q stats).team = q.team ∧
      (applyStats q stats).age = q.age ∧
      (applyStats q stats).«matches» = stats.«matches» ∧
      (applyStats q stats).runs_or_goals = stats.runs_or_goals ∧
      (applyStats q stats).average = stats.average := by
  constructor
  · cases h : sessionGet db player_id with
    | none =>
      have hall : ∀ q ∈ db, q.id ≠ player_id := by
        intro q hq heq
        have hnone := List.find?_eq_none.mp h q hq
        rw [heq] at hnone
        simp at hnone
      simp only [update_stats, h]
      exact (map_applyStats_id_of_absent stats player_id db hall).symm
    | some p =>
      simp only [update_stats, h]
      exact dbReplace_eq_map stats db player_id p hids h
  · intro q
    exact ⟨rfl, rfl, rfl, rfl, rfl, rfl, rfl, rfl⟩

/-- Witness for C9 at a concrete one-row store. -/
theorem C9_witness :
    (update_stats [witnessPlayer] "a" witnessStats).db =
      [witnessPlayer].map (fun q => if q.id = "a" then applyStats q witnessStats else q) :=
  (C9_update_stats_frame [witnessPlayer] "a" witnessStats (by simp)).1

/-- Claim C10: `create_player` requires `name`, `sport` and `stats`
with sub-keys `matches`, `runs_or_goals` and `average`; a missing
required key makes the endpoint raise an uncaught `KeyError` (the
`.error` short-circuits before any store commit or broadcast action is
produced), while missing `team` and `age` default to `""` and `0`. -/
theorem C10_create_player_required_keys (data : CreateBody) (newId : String)
    (db : List Player) :
    ((data.name = none ∨ data.sport = none ∨ data.stats = none ∨
      (∃ st, data.stats = some st ∧
        (st.«matches» = none ∨ st.runs_or_goals = none ∨ st.average = none))) →
      ∃ k, create_player data newId db = Except.error (PyExc.keyError k)) ∧
    (∀ n sp m r a, data.name = some n → data.sport = some sp → data.team = none →
      data.age = none →
      data.stats = some { «matches» := some m, runs_or_goals := some r, average := some a } →
      create_player data newId db =
        Except.ok
          { response := Except.ok (player_to_dict
              { id := newId, name := n, sport := sp, team := "", age := 0,
                «matches» := m, runs_or_goals := r, average := a }),
            db := db ++ [{ id := newId, name := n, sport := sp, team := "", age := 0,
                           «matches» := m, runs_or_goals := r, average := a }],
            actions := [ApiAction.commit
                (db ++ [{ id := newId, name := n, sport := sp, team := "", age := 0,
                          «matches» := m, runs_or_goals := r, average := a }]),
              ApiAction.broadcastCall (Msg.player_created (player_to_dict
                { id := newId, name := n, sport := sp, team := "", age := 0,
                  «matches» := m, runs_or_goals := r, average := a }))] }) := by
  constructor
  · intro hmiss
    cases hn : data.name with
    | none => exact ⟨"name", by simp [create_player, hn]⟩
    | some n =>
      cases hs : data.sport with
      | none => exact ⟨"sport", by simp [create_player, hn, hs]⟩
      | some sp =>
        cases hst : data.stats with
        | none => exact ⟨"stats", by simp [create_player, hn, hs, hst]⟩
        | some st =>
          cases hm : st.«matches» with
          | none => exact ⟨"matches", by simp [create_player, hn, hs, hst, hm]⟩
          | some m =>
            cases hr : st.runs_or_goals with
            | none => exact ⟨"runs_or_goals", by simp [create_player, hn, hs, hst, hm, hr]⟩
            | some r =>
              cases ha : st.average with
              | none => exact ⟨"average", by simp [create_player, hn, hs, hst, hm, hr, ha]⟩
              | some a =>
                exfalso
                rcases hmiss with h | h | h | ⟨st2, hst2, h⟩
                · rw [hn] at h; cases h
                · rw [hs] at h; cases h
                · rw [hst] at h; cases h
                · rw [hst] at hst2
                  cases hst2
                  rcases h with h | h | h
                  · rw [hm] at h; cases h
                  · rw [hr] at h; cases h
                  · rw [ha] at h; cases h
  · intro n sp m r a hn hs ht ha hst
    simp [create_player, hn, hs, ht, ha, hst]

/-- A request body with every key absent, used by the C10 witness. -/
def emptyBody : CreateBody :=
  { name := none, sport := none, team := none, age := none, stats := none }

/-- A request body with exactly the required keys, used by the C10
witness. -/
def minimalBody : CreateBody :=
  { name := some "n", sport := some "s", team := none, age := none,
    stats := some { «matches» := some 1, runs_or_goals := some 2, average := some 3 } }

/-- The row `create_player` stores for `minimalBody`: `team` and `age`
take their defaults. -/
def minimalPlayer : Player :=
  { id := "id1", name := "n", sport := "s", team := "", age := 0,
    «matches» := 1, runs_or_goals := 2, average := 3 }

/-- Witness for C10 at concrete inputs: an empty body raises a
`KeyError`, and a body with only the required keys stores the defaults
`team = ""` and `age = 0`. -/
theorem C10_witness :
    (∃ k, create_player emptyBody "id1" [] = Except.error (PyExc.keyError k)) ∧
    create_player minimalBody "id1" [] =
      Except.ok
        { response := Except.ok (player_to_dict minimalPlayer),
          db := [minimalPlayer],
          actions := [ApiAction.commit [minimalPlayer],
            ApiAction.broadcastCall (Msg.player_created (player_to_dict minimalPlayer))] } := by
  constructor
  · exact (C10_create_player_required_keys emptyBody "id1" []).1 (Or.inl rfl)
  · exact (C10_create_player_required_keys minimalBody "id1" []).2
      "n" "s" 1 2 3 rfl rfl rfl rfl rfl

theorem step_attach_registry (st : SysState) (ws2 : WS) (db : List Player) :
    (step st (Op.attach ws2 db)).registry = st.registry ++ [ws2] := rfl

theorem step_attach_log (st : SysState) (ws2 : WS) (db : List Player) :
    (step st (Op.attach ws2 db)).log =
      st.log ++ [(ws2, WsMsg.init (db.map player_to_dict))] := rfl

theorem step_attachFail_registry (st : SysState) (ws2 : WS) (db : List Player) :
    (step st (Op.attachFail ws2 db)).registry = st.registry ++ [ws2] := rfl

theorem step_attachFail_log (st : SysState) (ws2 : WS) (db : List Player) :
    (step st (Op.attachFail ws2 db)).log = st.log := rfl

theorem step_dispatch_registry (st : SysState) (m : Msg) (send_json : SendBehavior) :
    (step st (Op.dispatch m send_json)).registry =
      (ConnectionManager.broadcast send_json m st.registry).conns := rfl

theorem step_dispatch_log (st : SysState) (m : Msg) (send_json : SendBehavior) :
    (step st (Op.dispatch m send_json)).log =
      st.log ++ (ConnectionManager.broadcast send_json m st.registry).delivered.map
        (fun c => (c, WsMsg.event m)) := rfl

theorem step_detach_registry (st : SysState) (ws2 : WS) :
    (step st (Op.detach ws2)).registry = ConnectionManager.disconnect ws2 st.registry := rfl

theorem step_detach_log (st : SysState) (ws2 : WS) :
    (step st (Op.detach ws2)).log = st.log := rfl

theorem disconnect_subset (ws2 : WS) (conns : List WS) :
    ConnectionManager.disconnect ws2 conns ⊆ conns := by
  unfold ConnectionManager.disconnect
  by_cases h : ws2 ∈ conns
  · simpa [h] using List.erase_subset ws2 conns
  · simp [h]

theorem msgsTo_append (ws : WS) (l1 l2 : List (WS × WsMsg)) :
    msgsTo ws (l1 ++ l2) = msgsTo ws l1 ++ msgsTo ws l2 := by
  simp [msgsTo]

theorem msgsTo_single_self (ws : WS) (x : WsMsg) : msgsTo ws [(ws, x)] = [x] := by
  simp [msgsTo]

theorem msgsTo_single_ne (ws ws2 : WS) (x : WsMsg) (h : ws2 ≠ ws) :
    msgsTo ws [(ws2, x)] = [] := by
  simp [msgsTo, List.filter_cons, h]

theorem msgsTo_map_not_mem (ws : WS) (x : WsMsg) :
    ∀ l : List WS, ws ∉ l → msgsTo ws (l.map (fun c => (c, x))) = [] := by
  intro l
  induction l with
  | nil => intro _; rfl
  | cons c rest ih =>
    intro h
    have hc : (c == ws) = false :=
      beq_eq_false_iff_ne.mpr (fun e => h (e ▸ List.mem_cons_self c rest))
    have ih2 := ih (fun hm => h (List.mem_cons_of_mem c hm))
    simpa [msgsTo, List.filter_cons, hc] using ih2

theorem mem_of_mem_msgsTo (ws : WS) (log : List (WS × WsMsg)) (m : WsMsg)
    (hm : m ∈ msgsTo ws log) : (ws, m) ∈ log := by
  unfold msgsTo at hm
  obtain ⟨e, he, hes⟩ := List.mem_map.mp hm
  obtain ⟨he1, he2⟩ := List.mem_filter.mp he
  have h1 : e.1 = ws := by simpa using he2
  cases e with
  | mk a b =>
    simp only at h1 hes
    rw [h1, hes] at he1
    exact he1

theorem msgsTo_map_all_eq (ws : WS) (x : WsMsg) (l : List WS) (m : WsMsg)
    (hm : m ∈ msgsTo ws (l.map (fun c => (c, x)))) : m = x := by
  have h := mem_of_mem_msgsTo ws _ m hm
  obtain ⟨c, _, hpair⟩ := List.mem_map.mp h
  exact ((Prod.mk.injEq c x ws m).mp hpair).2.symm

theorem runTrace_append (ops1 ops2 : List Op) :
    ∀ st : SysState, runTrace st (ops1 ++ ops2) = runTrace (runTrace st ops1) ops2 := by
  induction ops1 with
  | nil => intro st; rfl
  | cons op rest ih => intro st; exact ih (step st op)

theorem step_preserves_fresh (ws : WS) (st : SysState) (op : Op)
    (h1 : ws ∉ st.registry) (h2 : msgsTo ws st.log = [])
    (hop : op.attachTarget ≠ some ws) :
    ws ∉ (step st op).registry ∧ msgsTo ws (step st op).log = [] := by
  cases op with
  | attach ws2 db =>
    have hne : ws2 ≠ ws := fun e => hop (by rw [e]; rfl)
    constructor
    · rw [step_attach_registry]
      intro hmem
      rcases List.mem_append.mp hmem with h | h
      · exact h1 h
      · exact hne (List.mem_singleton.mp h).symm
    · rw [step_attach_log, msgsTo_append, h2, msgsTo_single_ne ws ws2 _ hne]
      rfl
  | attachFail ws2 db =>
    have hne : ws2 ≠ ws := fun e => hop (by rw [e]; rfl)
    constructor
    · rw [step_attachFail_registry]
      intro hmem
      rcases List.mem_append.mp hmem with h | h
      · exact h1 h
      · exact hne (List.mem_singleton.mp h).symm
    · rw [step_attachFail_log]; exact h2
  | dispatch m send_json =>
    constructor
    · rw [step_dispatch_registry]
      intro hmem
      exact h1 (ConnectionManager.broadcast_conns_subset send_json m st.registry hmem)
    · rw [step_dispatch_log, msgsTo_append, h2]
      have hnot : ws ∉ (ConnectionManager.broadcast send_json m st.registry).delivered :=
        fun hmem => h1 (ConnectionManager.broadcast_delivered_subset send_json m _ hmem)
      rw [msgsTo_map_not_mem ws _ _ hnot]
      rfl
  | detach ws2 =>
    constructor
    · rw [step_detach_registry]
      intro hmem
      exact h1 (disconnect_subset ws2 st.registry hmem)
    · rw [step_detach_log]; exact h2

theorem trace_preserves_fresh (ws : WS) :
    ∀ (ops : List Op) (st : SysState),
      ws ∉ st.registry → msgsTo ws st.log = [] →
      (∀ op ∈ ops, op.attachTarget ≠ some ws) →
      ws ∉ (runTrace st ops).registry ∧ msgsTo ws (runTrace st ops).log = [] := by
  intro ops
  induction ops with
  | nil => intro st h1 h2 _; exact ⟨h1, h2⟩
  | cons op rest ih =>
    intro st h1 h2 hops
    obtain ⟨h1b, h2b⟩ :=
      step_preserves_fresh ws st op h1 h2 (hops op (List.mem_cons_self op rest))
    exact ih (step st op) h1b h2b (fun o ho => hops o (List.mem_cons_of_mem op ho))

theorem step_preserves_snapshot_first (ws : WS) (initPs : List PlayerDict) (st : SysState)
    (op : Op) (evs : List WsMsg)
    (h2 : msgsTo ws st.log = WsMsg.init initPs :: evs)
    (hevs : ∀ m ∈ evs, m.isEvent = true)
    (hop : op.attachTarget ≠ some ws) :
    ∃ evs2, msgsTo ws (step st op).log = WsMsg.init initPs :: evs2 ∧
      ∀ m ∈ evs2, m.isEvent = true := by
  cases op with
  | attach ws2 db =>
    have hne : ws2 ≠ ws := fun e => hop (by rw [e]; rfl)
    refine ⟨evs, ?_, hevs⟩
    rw [step_attach_log, msgsTo_append, h2, msgsTo_single_ne ws ws2 _ hne, List.append_nil]
  | attachFail ws2 db =>
    refine ⟨evs, ?_, hevs⟩
    rw [step_attachFail_log]; exact h2
  | dispatch m send_json =>
    refine ⟨evs ++ msgsTo ws
      ((ConnectionManager.broadcast send_json m st.registry).delivered.map
        (fun c => (c, WsMsg.event m))), ?_, ?_⟩
    · rw [step_dispatch_log, msgsTo_append, h2, List.cons_append]
    · intro m2 hm2
      rcases List.mem_append.mp hm2 with h | h
      · exact hevs m2 h
      · rw [msgsTo_map_all_eq ws (WsMsg.event m) _ m2 h]; rfl
  | detach ws2 =>
    refine ⟨evs, ?_, hevs⟩
    rw [step_detach_log]; exact h2

theorem trace_preserves_snapshot_first (ws : WS) (initPs : List PlayerDict) :
    ∀ (ops : List Op) (st : SysState) (evs : List WsMsg),
      msgsTo ws st.log = WsMsg.init initPs :: evs →
      (∀ m ∈ evs, m.isEvent = true) →
      (∀ op ∈ ops, op.attachTarget ≠ some ws) →
      ∃ evs2, msgsTo ws (runTrace st ops).log = WsMsg.init initPs :: evs2 ∧
        ∀ m ∈ evs2, m.isEvent = true := by
  intro ops
  induction ops with
  | nil => intro st evs h1 h2 _; exact ⟨evs, h1, h2⟩
  | cons op rest ih =>
    intro st evs h1 h2 hops
    obtain ⟨evs2, h1b, h2b⟩ := step_preserves_snapshot_first ws initPs st op evs h1 h2
      (hops op (List.mem_cons_self op rest))
    exact ih (step st op) evs2 h1b h2b (fun o ho => hops o (List.mem_cons_of_mem op ho))

/-- Claim C1: a listener that successfully attaches — `connect`
registers the channel, the record list is read, the snapshot is sent,
all without an intervening suspension point — receives exactly one
`init` Snapshot carrying the full record list, strictly before any
broadcast Event, over every trace of attaches, failed attaches,
broadcast dispatches and detaches in which the channel is fresh (not
registered before and not attached by any other operation). -/
theorem C1_snapshot_before_events (s0 : SysState) (pre post : List Op) (ws : WS)
    (db : List Player)
    (hreg : ws ∉ s0.registry) (hlog : msgsTo ws s0.log = [])
    (hpre : ∀ op ∈ pre, op.attachTarget ≠ some ws)
    (hpost : ∀ op ∈ post, op.attachTarget ≠ some ws) :
    ∃ evs, msgsTo ws (runTrace s0 (pre ++ Op.attach ws db :: post)).log =
      WsMsg.init (db.map player_to_dict) :: evs ∧ ∀ m ∈ evs, m.isEvent = true := by
  obtain ⟨hr1, hl1⟩ := trace_preserves_fresh ws pre s0 hreg hlog hpre
  have hstep : msgsTo ws (step (runTrace s0 pre) (Op.attach ws db)).log =
      WsMsg.init (db.map player_to_dict) :: [] := by
    rw [step_attach_log, msgsTo_append, hl1, msgsTo_single_self, List.nil_append]
  have hrun : runTrace s0 (pre ++ Op.attach ws db :: post) =
      runTrace (step (runTrace s0 pre) (Op.attach ws db)) post := by
    rw [runTrace_append]
    rfl
  rw [hrun]
  exact trace_preserves_snapshot_first ws (db.map player_to_dict) post
    (step (runTrace s0 pre) (Op.attach ws db)) [] hstep (fun m hm => absurd hm (by simp))
    hpost

/-- Witness for C1 at a concrete trace: another listener attaches
first, listener 0 attaches with a one-row store, then an event is
dispatched; listener 0's channel shows the snapshot first, then only
events. -/
theorem C1_witness :
    ∃ evs, msgsTo 0 (runTrace { registry := [], log := [] }
        ([Op.attach 1 []] ++ Op.attach 0 [witnessPlayer] ::
          [Op.dispatch (Msg.player_deleted "x") (fun _ _ => Except.ok ())])).log =
      WsMsg.init ([witnessPlayer].map player_to_dict) :: evs ∧
      ∀ m ∈ evs, m.isEvent = true :=
  C1_snapshot_before_events { registry := [], log := [] } [Op.attach 1 []]
    [Op.dispatch (Msg.player_deleted "x") (fun _ _ => Except.ok ())] 0 [witnessPlayer]
    (List.not_mem_nil 0) rfl
    (by intro op hop; rw [List.mem_singleton] at hop; rw [hop]; decide)
    (by intro op hop; rw [List.mem_singleton] at hop; rw [hop]; simp [Op.attachTarget])
